import Mathlib

/-!
Verification of the statistics derivation engine of a flight-log application.

The engine is the `stats` computation of `src/scripts/www/App.tsx`: a pure
function from a list of log entries and a reference instant `now` to a flat
record `FlightStats` of counts, duration sums, streak lengths and rest gaps.

Modelling conventions:
* Timestamps (`FlightLog.date`, `now`, `createdAt`) are integers, in
  milliseconds since the Unix epoch, exactly as `Date.getTime()`.
* The runtime environment has a fixed UTC offset `tz` (in milliseconds to
  add to a UTC instant to obtain local time).  The date-fns helpers
  `isSameDay`, `isSameWeek`, `isSameMonth`, `getFullYear` work on the local
  calendar; `toISOString` works on the UTC calendar.  Both are embedded
  below over that fixed-offset model.
* `date-fns.differenceInDays` returns the number of full days between two
  instants, which under a fixed offset is the millisecond difference
  divided by 86400000 with truncation toward zero (`Int.tdiv`).
* Duration values are carried as rational numbers.  Where a claim is
  insensitive to rounding this idealisation is harmless; the actual
  IEEE-754 binary64 arithmetic the source performs on durations (each
  addition and division rounds to nearest, ties to even) is modelled
  separately by `f64Round`, `f64Add` and `f64Div` over integer pairs, and
  the duration-arithmetic claims are settled against that model.
-/

/-- `FlightType` of `src/scripts/www/types.ts`: the three entry categories.
In the spec these are `PrimarySolo` (`single`), `PrimaryShared` (`multi`)
and `Incident` (`night`). -/
inductive FlightType where
  | single
  | multi
  | night
deriving DecidableEq

/-- `MoodType` of `src/scripts/www/types.ts`. -/
inductive MoodType where
  | tired
  | comfortable
  | normal
  | happy
deriving DecidableEq

/-- `FlightRatings` of `src/scripts/www/types.ts`. -/
structure FlightRatings where
  preFlight : Nat
  inFlight : Nat
  postFlight : Nat
deriving DecidableEq

/-- `FlightLog` of `src/scripts/www/types.ts`.  `date` is the entry
timestamp in epoch milliseconds (the ISO string parsed by `new Date`). -/
structure FlightLog where
  id : String
  date : Int
  type : FlightType
  flightTime : ℚ
  ratings : FlightRatings
  mood : Option MoodType
  notes : String
  createdAt : Int
deriving DecidableEq

/-- Milliseconds per calendar day. -/
def msPerDay : Int := 86400000

/-- The UTC calendar day number of an instant: the `YYYY-MM-DD` part of
`Date.toISOString()` identifies exactly this floor quotient. -/
def utcDayOf (t : Int) : Int := t.fdiv msPerDay

/-- The local calendar day number of an instant under fixed offset `tz`. -/
def localDay (tz t : Int) : Int := (t + tz).fdiv msPerDay

/-- `date-fns.differenceInDays`: number of full days between two instants,
truncation toward zero. -/
def differenceInDays (a b : Int) : Int := (a - b).tdiv msPerDay

/-- The day number of the Monday starting the week of local day `d`
(epoch day 0 = 1970-01-01 was a Thursday). -/
def mondayStart (d : Int) : Int := d - (d + 3) % 7

/-- Proleptic Gregorian calendar date `(year, month, day)` from a day
number (days since 1970-01-01), standard civil-from-days algorithm; this
is the calendar JavaScript `Date` accessors implement. -/
def civilFromDays (z : Int) : Int × Nat × Nat :=
  let zz := z + 719468
  let era := zz.fdiv 146097
  let doe := (zz - era * 146097).toNat
  let yoe := (doe - doe / 1460 + doe / 36524 - doe / 146096) / 365
  let doy := doe - (365 * yoe + yoe / 4 - yoe / 100)
  let mp := (5 * doy + 2) / 153
  let dd := doy - (153 * mp + 2) / 5 + 1
  let m := if mp < 10 then mp + 3 else mp - 9
  ((yoe : Int) + era * 400 + (if m ≤ 2 then 1 else 0), m, dd)

/-- Local calendar year of a day number. -/
def yearOfDay (d : Int) : Int := (civilFromDays d).1

/-- Local calendar month (1-12) of a day number. -/
def monthOfDay (d : Int) : Nat := (civilFromDays d).2.1

/-- `Date.getFullYear()` in a fixed-offset environment. -/
def getFullYear (tz t : Int) : Int := yearOfDay (localDay tz t)

/-- `Date.getMonth()`-style month accessor (here 1-12). -/
def getMonth (tz t : Int) : Nat := monthOfDay (localDay tz t)

/-- `date-fns.isSameDay`: same local calendar day. -/
def isSameDay (tz a b : Int) : Bool := localDay tz a == localDay tz b

/-- `date-fns.isSameWeek` with `weekStartsOn: 1`: same Monday-started local
week. -/
def isSameWeek (tz a b : Int) : Bool :=
  mondayStart (localDay tz a) == mondayStart (localDay tz b)

/-- `date-fns.isSameMonth`: same local calendar year and month. -/
def isSameMonth (tz a b : Int) : Bool :=
  getFullYear tz a == getFullYear tz b && getMonth tz a == getMonth tz b

/-- `Math.max(...l)` for a nonempty argument list (`0` on the empty list,
which the source always guards with a length check). -/
def jsMax {α : Type} [LinearOrder α] [Zero α] : List α → α
  | [] => 0
  | a :: as => as.foldl max a

/-- `Math.min(...l)` for a nonempty argument list (`0` on the empty list,
which the source always guards with a length check). -/
def jsMin {α : Type} [LinearOrder α] [Zero α] : List α → α
  | [] => 0
  | a :: as => as.foldl min a

/-- Insertion step of an ascending insertion sort on integers. -/
def insertAsc (x : Int) : List Int → List Int
  | [] => [x]
  | y :: ys => if x ≤ y then x :: y :: ys else y :: insertAsc x ys

/-- Ascending sort of integers, modelling `Array.prototype.sort()` on the
`YYYY-MM-DD` day-key strings (lexicographic = chronological for the
four-digit years this data carries). -/
def sortAsc : List Int → List Int
  | [] => []
  | x :: xs => insertAsc x (sortAsc xs)

/-- Insertion step of the by-date descending sort of log entries. -/
def insertDesc (x : FlightLog) : List FlightLog → List FlightLog
  | [] => [x]
  | y :: ys => if y.date ≤ x.date then x :: y :: ys else y :: insertDesc x ys

/-- `[...list].sort((a, b) => b.date - a.date)`: entries sorted by
timestamp, most recent first. -/
def sortByDateDesc : List FlightLog → List FlightLog
  | [] => []
  | x :: xs => insertDesc x (sortByDateDesc xs)

/-- The non-incident entries: the filter keeping every category except `night` (App.tsx line 33). -/
def validLogs (logs : List FlightLog) : List FlightLog :=
  logs.filter fun l => l.type != FlightType.night

/-- The incident entries: the filter keeping exactly the `night` category (App.tsx line 34). -/
def nightLogs (logs : List FlightLog) : List FlightLog :=
  logs.filter fun l => l.type == FlightType.night

/-- `sortedNightLogs` (App.tsx line 37). -/
def sortedNightLogs (logs : List FlightLog) : List FlightLog :=
  sortByDateDesc (nightLogs logs)

/-- `sortedLogs` (App.tsx line 39). -/
def sortedLogs (logs : List FlightLog) : List FlightLog :=
  sortByDateDesc (validLogs logs)

/-- Result shape of the `getCounts` helper (App.tsx lines 42-48). -/
structure Counts where
  today : Nat
  week : Nat
  month : Nat
  year : Nat
  total : Nat
deriving DecidableEq

/-- `getCounts` (App.tsx lines 42-48): period counts of a dataset relative
to `now` (`currentYear` is `now.getFullYear()`, captured once). -/
def getCounts (tz now currentYear : Int) (dataset : List FlightLog) : Counts :=
  { today := (dataset.filter fun l => isSameDay tz l.date now).length
    week := (dataset.filter fun l => isSameWeek tz l.date now).length
    month := (dataset.filter fun l => isSameMonth tz l.date now).length
    year := (dataset.filter fun l => getFullYear tz l.date == currentYear).length
    total := dataset.length }

/-- `sumHours` (App.tsx line 55): `reduce((acc, curr) => acc + curr.flightTime, 0)`. -/
def sumHours (logList : List FlightLog) : ℚ :=
  logList.foldl (fun acc curr => acc + curr.flightTime) 0

/-- `uniqueDayStrings` (App.tsx lines 82-84): unique UTC calendar days of
the non-incident entries (the date part of `toISOString`), sorted
descending (latest first). -/
def uniqueDayStrings (logs : List FlightLog) : List Int :=
  (sortAsc ((validLogs logs).map fun l => utcDayOf l.date).dedup).reverse

/-- Body of the streak loop (App.tsx lines 92-108) from the second unique
day on: `prev` is the previously visited (more recent) day,
`run` the length of the run currently open; closed runs are emitted in
encounter order and the final open run is flushed at the end
(line 109). -/
def streakCore (prev : Int) (run : Nat) : List Int → List Nat
  | [] => [run]
  | d :: rest =>
    if differenceInDays (prev * msPerDay) (d * msPerDay) = 1 then
      streakCore d (run + 1) rest
    else
      run :: streakCore d 1 rest

/-- `streakLengths` (App.tsx lines 88-109): list of streak run lengths, in
the order encountered (most recent run first). -/
def streakLengths : List Int → List Nat
  | [] => []
  | d :: rest => streakCore d 1 rest

/-- `currentActiveStreak` (App.tsx lines 112-125): the most recent run
length, but only when the most recent unique day is at most one whole day
before `now`. -/
def currentActiveStreak (now : Int) (ds : List Int) : Nat :=
  match ds with
  | [] => 0
  | d :: _ =>
    if differenceInDays now (d * msPerDay) ≤ 1 then
      (streakLengths ds).headD 0
    else
      0

/-- `restGaps` (App.tsx lines 134-145): for each adjacent pair of unique
days (newer, older), `gap = differenceInDays(newer, older) - 1`, keeping
positive gaps only. -/
def restGaps : List Int → List Int
  | [] => []
  | [_] => []
  | a :: b :: rest =>
    let gap := differenceInDays (a * msPerDay) (b * msPerDay) - 1
    if 0 < gap then gap :: restGaps (b :: rest) else restGaps (b :: rest)

/-- `FlightStats` of `src/scripts/www/types.ts`: the derived statistics
record. -/
structure FlightStats where
  flightsToday : Nat
  flightsThisWeek : Nat
  flightsThisYear : Nat
  flightsThisMonth : Nat
  hoursToday : ℚ
  hoursThisWeek : ℚ
  hoursThisMonth : ℚ
  hoursThisYear : ℚ
  soloFlightsToday : Nat
  soloFlightsThisWeek : Nat
  soloFlightsThisMonth : Nat
  soloFlightsThisYear : Nat
  multiFlightsToday : Nat
  multiFlightsThisWeek : Nat
  multiFlightsThisMonth : Nat
  multiFlightsThisYear : Nat
  daysSinceLastFlight : Int
  consecutiveDays : Nat
  maxStreak : Nat
  minStreak : Nat
  streakBreaks : Nat
  maxRestStreak : Int
  minRestStreak : Int
  restBreaks : Nat
  totalFlights : Nat
  totalSoloFlights : Nat
  totalMultiFlights : Nat
  totalHours : ℚ
  avgDuration : ℚ
  maxDuration : ℚ
  minDuration : ℚ
  totalNightFlights : Nat
  daysSinceLastIncident : Int
deriving DecidableEq

/-- The statistics engine: the `stats` `useMemo` body of App.tsx
(lines 28-195), with the ambient clock and the ambient timezone made
explicit parameters (`now` in epoch milliseconds, `tz` the fixed UTC
offset in milliseconds). -/
def computeStats (tz now : Int) (logs : List FlightLog) : FlightStats :=
  let currentYear := getFullYear tz now
  let vLogs := validLogs logs
  let nLogs := nightLogs logs
  let sNight := sortedNightLogs logs
  let sLogs := sortedLogs logs
  let allCounts := getCounts tz now currentYear sLogs
  let soloCounts := getCounts tz now currentYear
    (sLogs.filter fun l => l.type == FlightType.single)
  let multiCounts := getCounts tz now currentYear
    (sLogs.filter fun l => l.type == FlightType.multi)
  let hoursToday := sumHours (sLogs.filter fun l => isSameDay tz l.date now)
  let hoursThisWeek := sumHours (sLogs.filter fun l => isSameWeek tz l.date now)
  let hoursThisMonth := sumHours (sLogs.filter fun l => isSameMonth tz l.date now)
  let hoursThisYear := sumHours (sLogs.filter fun l => getFullYear tz l.date == currentYear)
  let totalHours := sumHours vLogs
  let avgDuration := if 0 < vLogs.length then totalHours / (vLogs.length : ℚ) else 0
  let durations := vLogs.map fun l => l.flightTime
  let maxDuration := if 0 < durations.length then jsMax durations else 0
  let minDuration := if 0 < durations.length then jsMin durations else 0
  let daysSinceLastFlight :=
    match sLogs with
    | [] => 0
    | l :: _ => differenceInDays now l.date
  let daysSinceLastIncident :=
    match sNight with
    | [] => -1
    | l :: _ => differenceInDays now l.date
  let uds := uniqueDayStrings logs
  let sls := streakLengths uds
  let maxStreak := if 0 < sls.length then jsMax sls else 0
  let validStreaks := sls.filter fun s => decide (0 < s)
  let minStreak := if 0 < validStreaks.length then jsMin validStreaks else 0
  let streakBreaks := validStreaks.length - 1
  let rGaps := restGaps uds
  let maxRestStreak := if 0 < rGaps.length then jsMax rGaps else 0
  let minRestStreak := if 0 < rGaps.length then jsMin rGaps else 0
  { flightsToday := allCounts.today
    flightsThisWeek := allCounts.week
    flightsThisYear := allCounts.year
    flightsThisMonth := allCounts.month
    hoursToday := hoursToday
    hoursThisWeek := hoursThisWeek
    hoursThisMonth := hoursThisMonth
    hoursThisYear := hoursThisYear
    soloFlightsToday := soloCounts.today
    soloFlightsThisWeek := soloCounts.week
    soloFlightsThisMonth := soloCounts.month
    soloFlightsThisYear := soloCounts.year
    multiFlightsToday := multiCounts.today
    multiFlightsThisWeek := multiCounts.week
    multiFlightsThisMonth := multiCounts.month
    multiFlightsThisYear := multiCounts.year
    daysSinceLastFlight := daysSinceLastFlight
    consecutiveDays := currentActiveStreak now uds
    maxStreak := maxStreak
    minStreak := minStreak
    streakBreaks := streakBreaks
    maxRestStreak := maxRestStreak
    minRestStreak := minRestStreak
    restBreaks := sls.length
    totalFlights := allCounts.total
    totalSoloFlights := soloCounts.total
    totalMultiFlights := multiCounts.total
    totalHours := totalHours
    avgDuration := avgDuration
    maxDuration := maxDuration
    minDuration := minDuration
    totalNightFlights := nLogs.length
    daysSinceLastIncident := daysSinceLastIncident }

/-!
Specification-side definitions.  These formalise the wording of the
specification (spec.md section 4.1) independently of the source loop
structure, so that the code-derived functions above can be proved to
refine them.
-/

/-- Specification notion of the run decomposition: split a day list
(most recent first) into runs, where a whole-day difference of exactly 1
between adjacent days continues the current run and any other difference
closes it.  Runs appear most recent first. -/
def consecRuns : List Int → List (List Int)
  | [] => []
  | [d] => [[d]]
  | d :: e :: rest =>
    match consecRuns (e :: rest) with
    | [] => [[d]]
    | r :: rs => if d - e = 1 then (d :: r) :: rs else [d] :: r :: rs

/-- Specification notion of the rest gaps: walk adjacent pairs of the
descending day list, take `gap = difference - 1`, and keep positive gaps. -/
def specRestGaps (ds : List Int) : List Int :=
  ((ds.zip ds.tail).map fun p => p.1 - p.2 - 1).filter fun g => decide (0 < g)

/-- Specification claim of the day keys: the timezone-local calendar dates
of the non-incident entries, collapsed and sorted descending. -/
def specLocalDayKeys (tz : Int) (logs : List FlightLog) : List Int :=
  (sortAsc ((validLogs logs).map fun l => localDay tz l.date).dedup).reverse

/-- Specification predicate: two instants fall on the same local calendar
day. -/
def sameCalendarDay (tz a b : Int) : Prop := localDay tz a = localDay tz b

/-- Specification predicate: instant `d` falls inside the Monday-started
week containing `now`. -/
def inMondayWeekOf (tz now d : Int) : Prop :=
  mondayStart (localDay tz now) ≤ localDay tz d ∧
    localDay tz d < mondayStart (localDay tz now) + 7

/-- Specification predicate: two instants fall in the same local calendar
month (same year and same month). -/
def sameCalendarMonth (tz a b : Int) : Prop :=
  yearOfDay (localDay tz a) = yearOfDay (localDay tz b) ∧
    monthOfDay (localDay tz a) = monthOfDay (localDay tz b)

/-- Specification predicate: two instants fall in the same local calendar
year. -/
def sameCalendarYear (tz a b : Int) : Prop :=
  yearOfDay (localDay tz a) = yearOfDay (localDay tz b)

/-- A minimal log entry on timestamp `d` with category `t`, used for the
concrete scenarios of the testable properties. -/
def mkLog (d : Int) (t : FlightType) : FlightLog :=
  { id := "", date := d, type := t, flightTime := 1,
    ratings := { preFlight := 3, inFlight := 3, postFlight := 3 },
    mood := none, notes := "", createdAt := d }

/-- Lapsed-streak scenario: activity on UTC days 2, 3, 4, 5, queried at
noon of day 10 (most recent activity 5 whole days before `now`, ending a
4-day run). -/
def lapsedLogs : List FlightLog :=
  [mkLog (2 * 86400000) FlightType.single, mkLog (3 * 86400000) FlightType.single,
   mkLog (4 * 86400000) FlightType.single, mkLog (5 * 86400000) FlightType.single]

/-- Reference instant of the lapsed-streak scenario: noon of UTC day 10. -/
def lapsedNow : Int := 10 * 86400000 + 43200000

/-- Gap-breaks-streak scenario: entries on exactly two UTC days, day 0 and
day 3 (two empty days between them). -/
def gapLogs : List FlightLog :=
  [mkLog 0 FlightType.single, mkLog (3 * 86400000) FlightType.single]

/-- Reference instant of the gap scenario: start of UTC day 3. -/
def gapNow : Int := 3 * 86400000

/-- Concrete input refuting the timezone-local day-key claim: one entry at
1969-12-31 23:00 UTC, in an environment at UTC+8 (where the local instant
is 1970-01-01 07:00): the UTC day is -1, the local day is 0. -/
def cexLocalLogs : List FlightLog := [mkLog (-3600000) FlightType.single]

/-- The UTC+8 offset (in milliseconds) of the refuting environment. -/
def cexTz : Int := 28800000

/-!
IEEE-754 binary64 semantics of the duration arithmetic.  JavaScript
numbers are binary64 doubles; every addition in the `reduce` of
`sumHours` (App.tsx line 55) and the division producing `avgDuration`
(line 63) rounds its exact result to the nearest double, ties to even.
A nonnegative double value is represented here as a pair `(n, k)` whose
value is `n / 2 ^ k`; exact nonnegative rationals enter as numerator and
denominator.  The model covers the normal range, which all inputs of
this development lie in.
-/

/-- Round the exact nonnegative rational `p / q` to the nearest binary64
double, ties to even: normalise the mantissa into `[2^52, 2^53)` by
doubling `p` (`f64Up`) or the denominator (`f64Down`), then round the
scaled mantissa at the halfway point towards the even candidate. -/
def f64Round (p q : Nat) : Nat × Nat :=
  if p = 0 then (0, 0) else
  let pu := f64Up 1200 p q 0
  let qv := f64Down 1200 pu.1 q 0
  let i := qv.1 / qv.2.1
  let r := qv.1 % qv.2.1
  let m := if 2 * r < qv.2.1 then i else if qv.2.1 < 2 * r then i + 1
           else if i % 2 = 0 then i else i + 1
  if pu.2 ≤ qv.2.2 then (m * 2 ^ (qv.2.2 - pu.2), 0) else (m, pu.2 - qv.2.2)
where
  f64Up : Nat → Nat → Nat → Nat → Nat × Nat
    | 0, p, _, u => (p, u)
    | f + 1, p, q, u =>
      if p < q * 4503599627370496 then f64Up f (2 * p) q (u + 1) else (p, u)
  f64Down : Nat → Nat → Nat → Nat → Nat × Nat × Nat
    | 0, p, q, v => (p, q, v)
    | f + 1, p, q, v =>
      if q * 9007199254740992 ≤ p then f64Down f p (2 * q) (v + 1) else (p, q, v)

/-- Binary64 addition: exact dyadic sum, then one rounding. -/
def f64Add (x y : Nat × Nat) : Nat × Nat :=
  let k := max x.2 y.2
  f64Round (x.1 * 2 ^ (k - x.2) + y.1 * 2 ^ (k - y.2)) (2 ^ k)

/-- Binary64 division by a small integer: exact quotient, then one
rounding. -/
def f64Div (x : Nat × Nat) (d : Nat) : Nat × Nat :=
  f64Round x.1 (2 ^ x.2 * d)

/-- Strict order on represented double values. -/
def dyLt (x y : Nat × Nat) : Bool :=
  decide (x.1 * 2 ^ y.2 < y.1 * 2 ^ x.2)

/-- `Math.max` on two represented double values (exact, no rounding). -/
def dyMax (x y : Nat × Nat) : Nat × Nat :=
  if x.1 * 2 ^ y.2 ≤ y.1 * 2 ^ x.2 then y else x

/-- The double stored for a nonnegative rational duration. -/
def toF64 (x : ℚ) : Nat × Nat := f64Round x.num.toNat x.den

/-- `sumHours` under binary64 semantics: the `reduce` of App.tsx line 55
with one rounding per addition. -/
def sumHoursF (logList : List FlightLog) : Nat × Nat :=
  logList.foldl (fun acc curr => f64Add acc (toF64 curr.flightTime)) (0, 0)

/-- `totalHours` (App.tsx line 62) under binary64 semantics: the sum over
`validLogs` in input order. -/
def totalHoursF (logs : List FlightLog) : Nat × Nat :=
  sumHoursF (validLogs logs)

/-- `hoursThisYear` (App.tsx line 60) under binary64 semantics: the sum
over the year filter of `sortedLogs`, hence in date-descending order. -/
def hoursThisYearF (tz now : Int) (logs : List FlightLog) : Nat × Nat :=
  sumHoursF ((sortedLogs logs).filter fun l =>
    getFullYear tz l.date == getFullYear tz now)

/-- `avgDuration` (App.tsx line 63) under binary64 semantics: one double
division of `totalHours` by the entry count. -/
def avgDurationF (logs : List FlightLog) : Nat × Nat :=
  if 0 < (validLogs logs).length then
    f64Div (totalHoursF logs) (validLogs logs).length
  else (0, 0)

/-- `maxDuration` (App.tsx lines 66-67) under binary64 semantics:
`Math.max` over the stored durations (exact, no rounding). -/
def maxDurationF (logs : List FlightLog) : Nat × Nat :=
  match (validLogs logs).map (fun l => toF64 l.flightTime) with
  | [] => (0, 0)
  | a :: as => as.foldl dyMax a

/-- The double nearest 0.1 (the value a JavaScript literal `0.1` stores):
`3602879701896397 / 2 ^ 55`. -/
def tenthD : ℚ :=
  Rat.mk' 3602879701896397 36028797018963968 (by norm_num) (by decide)

/-- The double nearest 1.2: `5404319552844595 / 2 ^ 52`. -/
def onePointTwoD : ℚ :=
  Rat.mk' 5404319552844595 4503599627370496 (by norm_num) (by decide)

/-- The integer double `2 ^ 53 + 6`, exactly representable. -/
def bigDurD : ℚ := Rat.mk' 9007199254740998 1 (by norm_num) (by decide)

/-- A non-incident entry on timestamp `d` with a given duration. -/
def mkLogF (d : Int) (ft : ℚ) : FlightLog :=
  { id := "", date := d, type := FlightType.single, flightTime := ft,
    ratings := { preFlight := 3, inFlight := 3, postFlight := 3 },
    mood := none, notes := "", createdAt := d }

/-- Failing input for the average-bounds claim: three entries of 0.1
hours each. -/
def roundingLogs : List FlightLog :=
  [mkLogF 0 tenthD, mkLogF 86400000 tenthD, mkLogF 172800000 tenthD]

/-- Failing input for the hour-sum monotonicity claim: durations 1.2,
1.2 and `2 ^ 53 + 6` hours, input in oldest-first order so that
`totalHours` sums ascending while `hoursThisYear` sums descending. -/
def orderLogs : List FlightLog :=
  [mkLogF 0 onePointTwoD, mkLogF 86400000 onePointTwoD,
   mkLogF 172800000 bigDurD]

/-- Reference instant of the order scenario (same year as all entries). -/
def orderNow : Int := 172800000

/-!
General lemmas about the fold-based maximum and minimum.
-/

section FoldOrder

variable {α : Type} [LinearOrder α]

theorem foldl_max_acc_mono : ∀ (l : List α) {x y : α}, x ≤ y →
    l.foldl max x ≤ l.foldl max y
  | [], _, _, h => h
  | a :: as, _, _, h => foldl_max_acc_mono as (max_le_max_right a h)

theorem self_le_foldl_max : ∀ (l : List α) (x : α), x ≤ l.foldl max x
  | [], _ => le_refl _
  | a :: as, x => le_trans (le_max_left x a) (self_le_foldl_max as (max x a))

theorem mem_le_foldl_max : ∀ (l : List α) (x : α) {b : α}, b ∈ l →
    b ≤ l.foldl max x
  | a :: as, x, b, h => by
    rcases List.mem_cons.mp h with h | h
    · subst h
      exact le_trans (le_max_right x b) (self_le_foldl_max as (max x b))
    · exact mem_le_foldl_max as (max x a) h

theorem foldl_max_mem : ∀ (l : List α) (x : α), l.foldl max x = x ∨ l.foldl max x ∈ l
  | [], _ => Or.inl rfl
  | a :: as, x => by
    rcases foldl_max_mem as (max x a) with h | h
    · rcases max_choice x a with hc | hc
      · exact Or.inl (by simpa [hc] using h)
      · refine Or.inr ?_
        rw [List.foldl_cons, h, hc]
        exact List.mem_cons_self a as
    · exact Or.inr (List.mem_cons_of_mem a h)

theorem foldl_min_acc_mono : ∀ (l : List α) {x y : α}, x ≤ y →
    l.foldl min x ≤ l.foldl min y
  | [], _, _, h => h
  | a :: as, _, _, h => foldl_min_acc_mono as (min_le_min_right a h)

theorem foldl_min_le_self : ∀ (l : List α) (x : α), l.foldl min x ≤ x
  | [], _ => le_refl _
  | a :: as, x => le_trans (foldl_min_le_self as (min x a)) (min_le_left x a)

theorem foldl_min_le_mem : ∀ (l : List α) (x : α) {b : α}, b ∈ l →
    l.foldl min x ≤ b
  | a :: as, x, b, h => by
    rcases List.mem_cons.mp h with h | h
    · subst h
      exact le_trans (foldl_min_le_self as (min x b)) (min_le_right x b)
    · exact foldl_min_le_mem as (min x a) h

theorem foldl_min_mem : ∀ (l : List α) (x : α), l.foldl min x = x ∨ l.foldl min x ∈ l
  | [], _ => Or.inl rfl
  | a :: as, x => by
    rcases foldl_min_mem as (min x a) with h | h
    · rcases min_choice x a with hc | hc
      · exact Or.inl (by simpa [hc] using h)
      · refine Or.inr ?_
        rw [List.foldl_cons, h, hc]
        exact List.mem_cons_self a as
    · exact Or.inr (List.mem_cons_of_mem a h)

end FoldOrder

section JsMaxMin

variable {α : Type} [LinearOrder α] [Zero α]

theorem le_jsMax {l : List α} {b : α} (hl : l ≠ []) (hb : b ∈ l) : b ≤ jsMax l := by
  cases l with
  | nil => cases hl rfl
  | cons a as =>
    rcases List.mem_cons.mp hb with h | h
    · subst h
      exact self_le_foldl_max as b
    · exact mem_le_foldl_max as a h

theorem jsMax_mem {l : List α} (hl : l ≠ []) : jsMax l ∈ l := by
  cases l with
  | nil => cases hl rfl
  | cons a as =>
    rcases foldl_max_mem as a with h | h
    · simp [jsMax, h]
    · exact List.mem_cons_of_mem a (by simpa [jsMax] using h)

theorem jsMin_le {l : List α} {b : α} (hl : l ≠ []) (hb : b ∈ l) : jsMin l ≤ b := by
  cases l with
  | nil => cases hl rfl
  | cons a as =>
    rcases List.mem_cons.mp hb with h | h
    · subst h
      exact foldl_min_le_self as b
    · exact foldl_min_le_mem as a h

theorem jsMin_mem {l : List α} (hl : l ≠ []) : jsMin l ∈ l := by
  cases l with
  | nil => cases hl rfl
  | cons a as =>
    rcases foldl_min_mem as a with h | h
    · simp [jsMin, h]
    · exact List.mem_cons_of_mem a (by simpa [jsMin] using h)

end JsMaxMin

/-!
Lemmas about the two insertion sorts.
-/

theorem insertAsc_perm (x : Int) : ∀ (l : List Int),
    List.Perm (insertAsc x l) (x :: l)
  | [] => List.Perm.refl _
  | y :: ys => by
    unfold insertAsc
    by_cases h : x ≤ y
    · rw [if_pos h]
    · rw [if_neg h]
      exact ((insertAsc_perm x ys).cons y).trans (List.Perm.swap x y ys)

theorem sortAsc_perm : ∀ (l : List Int), List.Perm (sortAsc l) l
  | [] => List.Perm.refl _
  | x :: xs => ((insertAsc_perm x (sortAsc xs)).trans ((sortAsc_perm xs).cons x))

theorem insertAsc_pairwise (x : Int) : ∀ {l : List Int},
    l.Pairwise (· ≤ ·) → (insertAsc x l).Pairwise (· ≤ ·)
  | [], _ => by simp [insertAsc]
  | y :: ys, h => by
    rcases List.pairwise_cons.mp h with ⟨hy, hys⟩
    unfold insertAsc
    by_cases hxy : x ≤ y
    · rw [if_pos hxy]
      refine List.pairwise_cons.mpr ⟨?_, h⟩
      intro b hb
      rcases List.mem_cons.mp hb with hb | hb
      · exact hb ▸ hxy
      · exact le_trans hxy (hy b hb)
    · rw [if_neg hxy]
      refine List.pairwise_cons.mpr ⟨?_, insertAsc_pairwise x hys⟩
      intro b hb
      rcases List.mem_cons.mp ((insertAsc_perm x ys).mem_iff.mp hb) with hb | hb
      · exact hb ▸ le_of_lt (lt_of_not_le hxy)
      · exact hy b hb

theorem sortAsc_pairwise : ∀ (l : List Int), (sortAsc l).Pairwise (· ≤ ·)
  | [] => List.Pairwise.nil
  | x :: xs => insertAsc_pairwise x (sortAsc_pairwise xs)

theorem insertDesc_perm (x : FlightLog) : ∀ (l : List FlightLog),
    List.Perm (insertDesc x l) (x :: l)
  | [] => List.Perm.refl _
  | y :: ys => by
    unfold insertDesc
    by_cases h : y.date ≤ x.date
    · rw [if_pos h]
    · rw [if_neg h]
      exact ((insertDesc_perm x ys).cons y).trans (List.Perm.swap x y ys)

theorem sortByDateDesc_perm : ∀ (l : List FlightLog),
    List.Perm (sortByDateDesc l) l
  | [] => List.Perm.refl _
  | x :: xs =>
    ((insertDesc_perm x (sortByDateDesc xs)).trans ((sortByDateDesc_perm xs).cons x))

theorem insertDesc_pairwise (x : FlightLog) : ∀ {l : List FlightLog},
    l.Pairwise (fun a b => b.date ≤ a.date) →
    (insertDesc x l).Pairwise (fun a b => b.date ≤ a.date)
  | [], _ => by simp [insertDesc]
  | y :: ys, h => by
    rcases List.pairwise_cons.mp h with ⟨hy, hys⟩
    unfold insertDesc
    by_cases hxy : y.date ≤ x.date
    · rw [if_pos hxy]
      refine List.pairwise_cons.mpr ⟨?_, h⟩
      intro b hb
      rcases List.mem_cons.mp hb with hb | hb
      · exact hb ▸ hxy
      · exact le_trans (hy b hb) hxy
    · rw [if_neg hxy]
      refine List.pairwise_cons.mpr ⟨?_, insertDesc_pairwise x hys⟩
      intro b hb
      rcases List.mem_cons.mp ((insertDesc_perm x ys).mem_iff.mp hb) with hb | hb
      · exact hb ▸ le_of_lt (lt_of_not_le hxy)
      · exact hy b hb

theorem sortByDateDesc_pairwise : ∀ (l : List FlightLog),
    (sortByDateDesc l).Pairwise (fun a b => b.date ≤ a.date)
  | [] => List.Pairwise.nil
  | x :: xs => insertDesc_pairwise x (sortByDateDesc_pairwise xs)

/-- The head of the descending by-date sort carries a maximal timestamp. -/
theorem sortByDateDesc_head_max {l : List FlightLog} {x : FlightLog}
    {xs : List FlightLog} (h : sortByDateDesc l = x :: xs) :
    ∀ y ∈ l, y.date ≤ x.date := by
  intro y hy
  have hy2 : y ∈ x :: xs := h ▸ (sortByDateDesc_perm l).symm.subset hy
  rcases List.mem_cons.mp hy2 with hh | hh
  · exact le_of_eq (congrArg FlightLog.date hh)
  · have hp := sortByDateDesc_pairwise l
    rw [h] at hp
    exact (List.pairwise_cons.mp hp).1 y hh

/-!
Properties of the unique-day key list.
-/

/-- The day-key list is strictly descending (latest day first). -/
theorem uniqueDayStrings_sorted (logs : List FlightLog) :
    (uniqueDayStrings logs).Pairwise (fun a b => b < a) := by
  unfold uniqueDayStrings
  rw [List.pairwise_reverse]
  have hle := sortAsc_pairwise (((validLogs logs).map fun l => utcDayOf l.date).dedup)
  have hnd : (sortAsc (((validLogs logs).map fun l => utcDayOf l.date).dedup)).Nodup :=
    ((sortAsc_perm _).nodup_iff).mpr (List.nodup_dedup _)
  exact (hle.and hnd).imp fun h => lt_of_le_of_ne h.1 h.2

/-- The day-key list carries exactly the UTC days of the non-incident
entries. -/
theorem uniqueDayStrings_mem (logs : List FlightLog) (d : Int) :
    d ∈ uniqueDayStrings logs ↔ ∃ l ∈ validLogs logs, utcDayOf l.date = d := by
  unfold uniqueDayStrings
  rw [List.mem_reverse, (sortAsc_perm _).mem_iff, List.mem_dedup, List.mem_map]

/-!
Projection lemmas: each output field of `computeStats` expressed through
the named pipeline pieces.  All hold by definitional unfolding.
-/

theorem computeStats_flightsToday (tz now : Int) (logs : List FlightLog) :
    (computeStats tz now logs).flightsToday =
      ((sortedLogs logs).filter fun l => isSameDay tz l.date now).length := rfl

theorem computeStats_flightsThisWeek (tz now : Int) (logs : List FlightLog) :
    (computeStats tz now logs).flightsThisWeek =
      ((sortedLogs logs).filter fun l => isSameWeek tz l.date now).length := rfl

theorem computeStats_flightsThisMonth (tz now : Int) (logs : List FlightLog) :
    (computeStats tz now logs).flightsThisMonth =
      ((sortedLogs logs).filter fun l => isSameMonth tz l.date now).length := rfl

theorem computeStats_flightsThisYear (tz now : Int) (logs : List FlightLog) :
    (computeStats tz now logs).flightsThisYear =
      ((sortedLogs logs).filter fun l =>
        getFullYear tz l.date == getFullYear tz now).length := rfl

theorem computeStats_totalFlights (tz now : Int) (logs : List FlightLog) :
    (computeStats tz now logs).totalFlights = (sortedLogs logs).length := rfl

theorem computeStats_soloToday (tz now : Int) (logs : List FlightLog) :
    (computeStats tz now logs).soloFlightsToday =
      (((sortedLogs logs).filter fun l => l.type == FlightType.single).filter
        fun l => isSameDay tz l.date now).length := rfl

theorem computeStats_soloWeek (tz now : Int) (logs : List FlightLog) :
    (computeStats tz now logs).soloFlightsThisWeek =
      (((sortedLogs logs).filter fun l => l.type == FlightType.single).filter
        fun l => isSameWeek tz l.date now).length := rfl

theorem computeStats_soloMonth (tz now : Int) (logs : List FlightLog) :
    (computeStats tz now logs).soloFlightsThisMonth =
      (((sortedLogs logs).filter fun l => l.type == FlightType.single).filter
        fun l => isSameMonth tz l.date now).length := rfl

theorem computeStats_soloYear (tz now : Int) (logs : List FlightLog) :
    (computeStats tz now logs).soloFlightsThisYear =
      (((sortedLogs logs).filter fun l => l.type == FlightType.single).filter
        fun l => getFullYear tz l.date == getFullYear tz now).length := rfl

theorem computeStats_totalSolo (tz now : Int) (logs : List FlightLog) :
    (computeStats tz now logs).totalSoloFlights =
      ((sortedLogs logs).filter fun l => l.type == FlightType.single).length := rfl

theorem computeStats_multiToday (tz now : Int) (logs : List FlightLog) :
    (computeStats tz now logs).multiFlightsToday =
      (((sortedLogs logs).filter fun l => l.type == FlightType.multi).filter
        fun l => isSameDay tz l.date now).length := rfl

theorem computeStats_multiWeek (tz now : Int) (logs : List FlightLog) :
    (computeStats tz now logs).multiFlightsThisWeek =
      (((sortedLogs logs).filter fun l => l.type == FlightType.multi).filter
        fun l => isSameWeek tz l.date now).length := rfl

theorem computeStats_multiMonth (tz now : Int) (logs : List FlightLog) :
    (computeStats tz now logs).multiFlightsThisMonth =
      (((sortedLogs logs).filter fun l => l.type == FlightType.multi).filter
        fun l => isSameMonth tz l.date now).length := rfl

theorem computeStats_multiYear (tz now : Int) (logs : List FlightLog) :
    (computeStats tz now logs).multiFlightsThisYear =
      (((sortedLogs logs).filter fun l => l.type == FlightType.multi).filter
        fun l => getFullYear tz l.date == getFullYear tz now).length := rfl

theorem computeStats_totalMulti (tz now : Int) (logs : List FlightLog) :
    (computeStats tz now logs).totalMultiFlights =
      ((sortedLogs logs).filter fun l => l.type == FlightType.multi).length := rfl

theorem computeStats_hoursToday (tz now : Int) (logs : List FlightLog) :
    (computeStats tz now logs).hoursToday =
      sumHours ((sortedLogs logs).filter fun l => isSameDay tz l.date now) := rfl

theorem computeStats_hoursThisWeek (tz now : Int) (logs : List FlightLog) :
    (computeStats tz now logs).hoursThisWeek =
      sumHours ((sortedLogs logs).filter fun l => isSameWeek tz l.date now) := rfl

theorem computeStats_hoursThisMonth (tz now : Int) (logs : List FlightLog) :
    (computeStats tz now logs).hoursThisMonth =
      sumHours ((sortedLogs logs).filter fun l => isSameMonth tz l.date now) := rfl

theorem computeStats_hoursThisYear (tz now : Int) (logs : List FlightLog) :
    (computeStats tz now logs).hoursThisYear =
      sumHours ((sortedLogs logs).filter fun l =>
        getFullYear tz l.date == getFullYear tz now) := rfl

theorem computeStats_totalHours (tz now : Int) (logs : List FlightLog) :
    (computeStats tz now logs).totalHours = sumHours (validLogs logs) := rfl

theorem computeStats_avgDuration (tz now : Int) (logs : List FlightLog) :
    (computeStats tz now logs).avgDuration =
      (if 0 < (validLogs logs).length then
        sumHours (validLogs logs) / ((validLogs logs).length : ℚ) else 0) := rfl

theorem computeStats_maxDuration (tz now : Int) (logs : List FlightLog) :
    (computeStats tz now logs).maxDuration =
      (if 0 < ((validLogs logs).map fun l => l.flightTime).length then
        jsMax ((validLogs logs).map fun l => l.flightTime) else 0) := rfl

theorem computeStats_minDuration (tz now : Int) (logs : List FlightLog) :
    (computeStats tz now logs).minDuration =
      (if 0 < ((validLogs logs).map fun l => l.flightTime).length then
        jsMin ((validLogs logs).map fun l => l.flightTime) else 0) := rfl

theorem computeStats_consecutiveDays (tz now : Int) (logs : List FlightLog) :
    (computeStats tz now logs).consecutiveDays =
      currentActiveStreak now (uniqueDayStrings logs) := rfl

theorem computeStats_maxStreak (tz now : Int) (logs : List FlightLog) :
    (computeStats tz now logs).maxStreak =
      (if 0 < (streakLengths (uniqueDayStrings logs)).length then
        jsMax (streakLengths (uniqueDayStrings logs)) else 0) := rfl

theorem computeStats_minStreak (tz now : Int) (logs : List FlightLog) :
    (computeStats tz now logs).minStreak =
      (if 0 < ((streakLengths (uniqueDayStrings logs)).filter
          fun s => decide (0 < s)).length then
        jsMin ((streakLengths (uniqueDayStrings logs)).filter
          fun s => decide (0 < s)) else 0) := rfl

theorem computeStats_streakBreaks (tz now : Int) (logs : List FlightLog) :
    (computeStats tz now logs).streakBreaks =
      ((streakLengths (uniqueDayStrings logs)).filter
        fun s => decide (0 < s)).length - 1 := rfl

theorem computeStats_maxRestStreak (tz now : Int) (logs : List FlightLog) :
    (computeStats tz now logs).maxRestStreak =
      (if 0 < (restGaps (uniqueDayStrings logs)).length then
        jsMax (restGaps (uniqueDayStrings logs)) else 0) := rfl

theorem computeStats_minRestStreak (tz now : Int) (logs : List FlightLog) :
    (computeStats tz now logs).minRestStreak =
      (if 0 < (restGaps (uniqueDayStrings logs)).length then
        jsMin (restGaps (uniqueDayStrings logs)) else 0) := rfl

theorem computeStats_restBreaks (tz now : Int) (logs : List FlightLog) :
    (computeStats tz now logs).restBreaks =
      (streakLengths (uniqueDayStrings logs)).length := rfl

theorem computeStats_totalNight (tz now : Int) (logs : List FlightLog) :
    (computeStats tz now logs).totalNightFlights = (nightLogs logs).length := rfl

theorem computeStats_daysSinceLastIncident (tz now : Int) (logs : List FlightLog) :
    (computeStats tz now logs).daysSinceLastIncident =
      (match sortedNightLogs logs with
      | [] => -1
      | l :: _ => differenceInDays now l.date) := rfl

theorem computeStats_daysSinceLastFlight (tz now : Int) (logs : List FlightLog) :
    (computeStats tz now logs).daysSinceLastFlight =
      (match sortedLogs logs with
      | [] => 0
      | l :: _ => differenceInDays now l.date) := rfl

/-!
The streak loop versus the specification run decomposition.
-/

/-- `differenceInDays` between two UTC midnights is the plain day
difference. -/
theorem diffDays_mul (a b : Int) :
    differenceInDays (a * msPerDay) (b * msPerDay) = a - b := by
  unfold differenceInDays
  rw [← sub_mul]
  exact Int.mul_tdiv_cancel _ (by norm_num [msPerDay])

/-- `consecRuns` of a nonempty list is nonempty and its first run starts
with the first day. -/
theorem consecRuns_cons_shape (x : Int) : ∀ (xs : List Int),
    ∃ t rs, consecRuns (x :: xs) = (x :: t) :: rs
  | [] => ⟨[], [], rfl⟩
  | e :: rest => by
    obtain ⟨t, rs, h⟩ := consecRuns_cons_shape e rest
    unfold consecRuns
    rw [h]
    dsimp only
    by_cases hd : x - e = 1
    · exact ⟨e :: t, rs, by rw [if_pos hd]⟩
    · exact ⟨[], (e :: t) :: rs, by rw [if_neg hd]⟩

/-- Unfolding equation for `consecRuns` on two or more days, run
continued. -/
theorem consecRuns_cons_pos {d e : Int} {rest t : List Int}
    {rs : List (List Int)} (h : consecRuns (e :: rest) = (e :: t) :: rs)
    (hd : d - e = 1) : consecRuns (d :: e :: rest) = (d :: e :: t) :: rs := by
  unfold consecRuns
  rw [h]
  dsimp only
  rw [if_pos hd]

/-- Unfolding equation for `consecRuns` on two or more days, run closed. -/
theorem consecRuns_cons_neg {d e : Int} {rest t : List Int}
    {rs : List (List Int)} (h : consecRuns (e :: rest) = (e :: t) :: rs)
    (hd : ¬d - e = 1) :
    consecRuns (d :: e :: rest) = [d] :: (e :: t) :: rs := by
  unfold consecRuns
  rw [h]
  dsimp only
  rw [if_neg hd]

/-- The runs concatenate back to the full day list: `consecRuns`
partitions its input. -/
theorem consecRuns_flatten : ∀ (l : List Int), (consecRuns l).flatten = l
  | [] => rfl
  | [d] => rfl
  | d :: e :: rest => by
    obtain ⟨t, rs, h⟩ := consecRuns_cons_shape e rest
    have ih := consecRuns_flatten (e :: rest)
    rw [h] at ih
    by_cases hd : d - e = 1
    · rw [consecRuns_cons_pos h hd]
      simpa using ih
    · rw [consecRuns_cons_neg h hd]
      simpa using ih

/-- Every run is nonempty and internally strictly consecutive: adjacent
days inside a run differ by exactly one whole day. -/
theorem consecRuns_runs : ∀ (l : List Int), ∀ r ∈ consecRuns l,
    r ≠ [] ∧ r.Chain' (fun a b => a - b = 1)
  | [], r, hr => by cases hr
  | [d], r, hr => by
    rcases List.mem_singleton.mp hr with rfl
    exact ⟨List.cons_ne_nil _ _, List.chain'_singleton d⟩
  | d :: e :: rest, r, hr => by
    obtain ⟨t, rs, h⟩ := consecRuns_cons_shape e rest
    have ih := consecRuns_runs (e :: rest)
    rw [h] at ih
    by_cases hd : d - e = 1
    · rw [consecRuns_cons_pos h hd] at hr
      rcases List.mem_cons.mp hr with rfl | hmem
      · refine ⟨List.cons_ne_nil _ _, ?_⟩
        exact List.chain'_cons.mpr ⟨hd, (ih (e :: t) (List.mem_cons_self _ _)).2⟩
      · exact ih r (List.mem_cons_of_mem _ hmem)
    · rw [consecRuns_cons_neg h hd] at hr
      rcases List.mem_cons.mp hr with rfl | hmem
      · exact ⟨List.cons_ne_nil _ _, List.chain'_singleton d⟩
      · exact ih r hmem

/-- Runs are maximal: across a run boundary the day difference is not 1. -/
theorem consecRuns_boundaries : ∀ (l : List Int),
    (consecRuns l).Chain' (fun r s => ∀ a ∈ r.getLast?, ∀ b ∈ s.head?, a - b ≠ 1)
  | [] => List.chain'_nil
  | [_] => List.chain'_singleton _
  | d :: e :: rest => by
    obtain ⟨t, rs, h⟩ := consecRuns_cons_shape e rest
    have ih := consecRuns_boundaries (e :: rest)
    rw [h] at ih
    by_cases hd : d - e = 1
    · rw [consecRuns_cons_pos h hd]
      rcases List.chain'_cons'.mp ih with ⟨hhead, htail⟩
      refine List.chain'_cons'.mpr ⟨?_, htail⟩
      intro y hy a ha b hb
      refine hhead y hy a ?_ b hb
      rwa [List.getLast?_cons_cons] at ha
    · rw [consecRuns_cons_neg h hd]
      refine List.chain'_cons'.mpr ⟨?_, ih⟩
      intro y hy a ha b hb
      simp only [List.head?_cons, Option.mem_def, Option.some_inj] at hy hb
      subst hy
      simp only [List.getLast?_singleton, Option.mem_def, Option.some_inj] at ha
      subst ha
      simp only [List.head?_cons, Option.mem_def, Option.some_inj] at hb
      subst hb
      exact hd

/-- The streak loop body computes the run lengths of the tail, with the
open run extended by the accumulator. -/
theorem streakCore_eq : ∀ (rest : List Int) (d : Int) (n : Nat),
    streakCore d n rest =
      ((consecRuns (d :: rest)).map List.length).modifyHead fun k => k + n - 1
  | [], d, n => by simp [streakCore, consecRuns]
  | e :: rest, d, n => by
    obtain ⟨t, rs, h⟩ := consecRuns_cons_shape e rest
    unfold streakCore
    rw [diffDays_mul]
    by_cases hd : d - e = 1
    · rw [if_pos hd, consecRuns_cons_pos h hd]
      have ih := streakCore_eq rest e (n + 1)
      rw [h] at ih
      rw [ih]
      simp only [List.map_cons, List.modifyHead_cons, List.length_cons]
      exact List.cons_eq_cons.mpr ⟨by omega, rfl⟩
    · rw [if_neg hd, consecRuns_cons_neg h hd]
      have ih := streakCore_eq rest e 1
      rw [h] at ih
      rw [ih]
      simp only [List.map_cons, List.modifyHead_cons, List.length_cons,
        List.length_nil]
      exact List.cons_eq_cons.mpr ⟨by omega,
        List.cons_eq_cons.mpr ⟨by omega, rfl⟩⟩

/-- The run-length list of the source loop is exactly the length image of
the specification run decomposition. -/
theorem streakLengths_eq (l : List Int) :
    streakLengths l = (consecRuns l).map List.length := by
  cases l with
  | nil => rfl
  | cons d rest =>
    obtain ⟨t, rs, h⟩ := consecRuns_cons_shape d rest
    show streakCore d 1 rest = _
    rw [streakCore_eq rest d 1, h]
    simp

/-- The rest-gap loop equals the specification pairwise-gap description. -/
theorem restGaps_eq_spec : ∀ (ds : List Int), restGaps ds = specRestGaps ds
  | [] => rfl
  | [_] => rfl
  | a :: b :: rest => by
    have ih := restGaps_eq_spec (b :: rest)
    unfold restGaps
    simp only [diffDays_mul]
    unfold specRestGaps
    simp only [List.tail_cons, List.zip_cons_cons, List.map_cons, List.filter_cons]
    unfold specRestGaps at ih
    simp only [List.tail_cons] at ih
    by_cases hg : 0 < a - b - 1
    · rw [if_pos hg, ih]
      simp [hg]
    · rw [if_neg hg, ih]
      simp [hg]

/-!
Sum lemmas.
-/

theorem sumHours_foldl (l : List FlightLog) (a : ℚ) :
    l.foldl (fun acc curr => acc + curr.flightTime) a = a + sumHours l := by
  induction l generalizing a with
  | nil => simp [sumHours]
  | cons x xs ih =>
    show xs.foldl _ (a + x.flightTime) = a + sumHours (x :: xs)
    rw [ih (a + x.flightTime)]
    show a + x.flightTime + sumHours xs = a + xs.foldl _ (0 + x.flightTime)
    rw [ih (0 + x.flightTime)]
    ring

theorem sumHours_cons (x : FlightLog) (l : List FlightLog) :
    sumHours (x :: l) = x.flightTime + sumHours l := by
  show (x :: l).foldl _ 0 = _
  rw [List.foldl_cons, sumHours_foldl]
  ring

theorem sumHours_filter_mono {p q : FlightLog → Bool} {l : List FlightLog}
    (hpq : ∀ a, p a = true → q a = true) (h : ∀ a ∈ l, 0 ≤ a.flightTime) :
    sumHours (l.filter p) ≤ sumHours (l.filter q) := by
  induction l with
  | nil => exact le_refl _
  | cons x xs ih =>
    have hx := h x (List.mem_cons_self _ _)
    have hxs := ih fun a ha => h a (List.mem_cons_of_mem _ ha)
    rw [List.filter_cons, List.filter_cons]
    by_cases hp : p x = true
    · rw [if_pos hp, if_pos (hpq x hp), sumHours_cons, sumHours_cons]
      linarith
    · rw [if_neg hp]
      by_cases hq : q x = true
      · rw [if_pos hq, sumHours_cons]
        linarith
      · rw [if_neg hq]
        exact hxs

theorem length_filter_mono {α : Type} {p q : α → Bool} {l : List α}
    (hpq : ∀ a, p a = true → q a = true) :
    (l.filter p).length ≤ (l.filter q).length := by
  induction l with
  | nil => exact le_refl _
  | cons x xs ih =>
    rw [List.filter_cons, List.filter_cons]
    by_cases hp : p x = true
    · rw [if_pos hp, if_pos (hpq x hp)]
      simpa using ih
    · rw [if_neg hp]
      by_cases hq : q x = true
      · rw [if_pos hq]
        exact le_trans ih (by simp)
      · rw [if_neg hq]
        exact ih

/-!
Calendar predicate lemmas.
-/

/-- The two characterisations of the Monday-started week: equal week
anchors, and membership of the seven-day interval. -/
theorem mondayStart_eq_iff (a b : Int) :
    mondayStart a = mondayStart b ↔ mondayStart b ≤ a ∧ a < mondayStart b + 7 := by
  unfold mondayStart
  have ha := Int.emod_add_ediv (a + 3) 7
  have hb := Int.emod_add_ediv (b + 3) 7
  omega

theorem isSameDay_iff (tz d now : Int) :
    isSameDay tz d now = true ↔ sameCalendarDay tz d now := by
  simp [isSameDay, sameCalendarDay]

theorem isSameWeek_iff (tz d now : Int) :
    isSameWeek tz d now = true ↔ inMondayWeekOf tz now d := by
  simp only [isSameWeek, beq_iff_eq, inMondayWeekOf]
  exact mondayStart_eq_iff (localDay tz d) (localDay tz now)

theorem isSameMonth_iff (tz d now : Int) :
    isSameMonth tz d now = true ↔ sameCalendarMonth tz d now := by
  simp [isSameMonth, sameCalendarMonth, getFullYear, getMonth]

theorem sameYear_iff (tz d now : Int) :
    (getFullYear tz d == getFullYear tz now) = true ↔ sameCalendarYear tz d now := by
  simp [sameCalendarYear, getFullYear]

theorem isSameDay_imp_week {tz d now : Int} (h : isSameDay tz d now = true) :
    isSameWeek tz d now = true := by
  simp only [isSameDay, beq_iff_eq] at h
  simp [isSameWeek, h]

theorem isSameDay_imp_month {tz d now : Int} (h : isSameDay tz d now = true) :
    isSameMonth tz d now = true := by
  simp only [isSameDay, beq_iff_eq] at h
  simp [isSameMonth, getFullYear, getMonth, h]

theorem isSameMonth_imp_year {tz d now : Int} (h : isSameMonth tz d now = true) :
    (getFullYear tz d == getFullYear tz now) = true := by
  simp only [isSameMonth, Bool.and_eq_true, beq_iff_eq] at h
  simp [h.1]

/-!
Partition lemmas on the category filters.
-/

theorem valid_night_partition : ∀ (l : List FlightLog),
    (validLogs l).length + (nightLogs l).length = l.length
  | [] => rfl
  | x :: xs => by
    have ih := valid_night_partition xs
    unfold validLogs nightLogs at ih ⊢
    rw [List.filter_cons, List.filter_cons]
    cases hx : x.type <;> simp [hx] <;> omega

theorem solo_multi_partition : ∀ (m : List FlightLog),
    (∀ a ∈ m, a.type ≠ FlightType.night) →
    m.length = (m.filter fun l => l.type == FlightType.single).length +
      (m.filter fun l => l.type == FlightType.multi).length
  | [], _ => rfl
  | x :: xs, h => by
    have ih := solo_multi_partition xs fun a ha => h a (List.mem_cons_of_mem _ ha)
    have hx := h x (List.mem_cons_self _ _)
    rw [List.filter_cons, List.filter_cons]
    cases hxt : x.type
    · simp [hxt, List.length_cons, ih]
      omega
    · simp [hxt, List.length_cons, ih]
      omega
    · exact absurd hxt hx

theorem mem_validLogs_type {logs : List FlightLog} {a : FlightLog}
    (h : a ∈ validLogs logs) : a.type ≠ FlightType.night := by
  unfold validLogs at h
  have := (List.mem_filter.mp h).2
  simpa using this

theorem mem_sortedLogs_type {logs : List FlightLog} {a : FlightLog}
    (h : a ∈ sortedLogs logs) : a.type ≠ FlightType.night :=
  mem_validLogs_type ((sortByDateDesc_perm _).subset h)

theorem mem_sortedLogs_mem {logs : List FlightLog} {a : FlightLog}
    (h : a ∈ sortedLogs logs) : a ∈ logs :=
  List.mem_of_mem_filter ((sortByDateDesc_perm _).subset h)

/-- Applying `validLogs` twice is the same as applying it once. -/
theorem validLogs_idem (logs : List FlightLog) :
    validLogs (validLogs logs) = validLogs logs := by
  unfold validLogs
  rw [List.filter_filter]
  exact List.filter_congr fun a _ => by cases h : a.type <;> simp [h]

/-- The incident partition of an incident-free list is empty. -/
theorem nightLogs_validLogs (logs : List FlightLog) :
    nightLogs (validLogs logs) = [] := by
  unfold nightLogs validLogs
  rw [List.filter_filter]
  rw [show (fun a : FlightLog =>
      (a.type == FlightType.night) && (a.type != FlightType.night)) =
      fun _ => false from funext fun a => by cases h : a.type <;> simp [h]]
  exact List.filter_false _

theorem sortedLogs_validLogs (logs : List FlightLog) :
    sortedLogs (validLogs logs) = sortedLogs logs := by
  unfold sortedLogs
  rw [validLogs_idem]

theorem uniqueDayStrings_validLogs (logs : List FlightLog) :
    uniqueDayStrings (validLogs logs) = uniqueDayStrings logs := by
  unfold uniqueDayStrings
  rw [validLogs_idem]

theorem sortedNightLogs_validLogs (logs : List FlightLog) :
    sortedNightLogs (validLogs logs) = [] := by
  unfold sortedNightLogs
  rw [nightLogs_validLogs]
  rfl

/-- The timestamp at the head of the sorted incident list is the maximal
incident timestamp. -/
theorem sortedNightLogs_head_eq_max {logs : List FlightLog} {x : FlightLog}
    {xs : List FlightLog} (h : sortedNightLogs logs = x :: xs) :
    x.date = jsMax ((nightLogs logs).map FlightLog.date) := by
  have hperm := sortByDateDesc_perm (nightLogs logs)
  have hx : x ∈ nightLogs logs := by
    refine hperm.subset ?_
    rw [show sortByDateDesc (nightLogs logs) = x :: xs from h]
    exact List.mem_cons_self _ _
  have hne : (nightLogs logs).map FlightLog.date ≠ [] := by
    intro hcon
    rw [List.map_eq_nil_iff] at hcon
    rw [hcon] at hx
    cases hx
  have hup : ∀ z ∈ (nightLogs logs).map FlightLog.date, z ≤ x.date := by
    intro z hz
    rcases List.mem_map.mp hz with ⟨y, hy, rfl⟩
    exact sortByDateDesc_head_max h y hy
  have h1 : x.date ≤ jsMax ((nightLogs logs).map FlightLog.date) :=
    le_jsMax hne (List.mem_map_of_mem FlightLog.date hx)
  have h2 : jsMax ((nightLogs logs).map FlightLog.date) ≤ x.date :=
    hup _ (jsMax_mem hne)
  exact le_antisymm h1 h2

/-- The source head-of-sorted-incidents expression described through the
maximum incident timestamp. -/
theorem lastIncident_match_eq (now : Int) (logs : List FlightLog) :
    (match sortedNightLogs logs with
      | [] => (-1 : Int)
      | l :: _ => differenceInDays now l.date) =
      (if (nightLogs logs).isEmpty then (-1 : Int)
      else differenceInDays now (jsMax ((nightLogs logs).map FlightLog.date))) := by
  cases h : sortedNightLogs logs with
  | nil =>
    have : nightLogs logs = [] := by
      have hperm := sortByDateDesc_perm (nightLogs logs)
      unfold sortedNightLogs at h
      rw [h] at hperm
      exact hperm.symm.eq_nil
    rw [this]
    rfl
  | cons x xs =>
    have hne : (nightLogs logs) ≠ [] := by
      intro hcon
      unfold sortedNightLogs at h
      rw [hcon] at h
      cases h
    rw [if_neg (by simpa [List.isEmpty_iff] using hne)]
    show differenceInDays now x.date = _
    rw [sortedNightLogs_head_eq_max h]

/-!
Claim theorems.
-/

/-- C3: on the empty log list, for every reference instant, `computeStats`
returns the all-zero record with the `-1` incident sentinel: every count
and duration sum is 0, all streak and rest-gap statistics are 0,
`daysSinceLastFlight = 0` and `daysSinceLastIncident = -1`. -/
theorem computeStats_empty (tz now : Int) :
    computeStats tz now [] =
      { flightsToday := 0, flightsThisWeek := 0, flightsThisYear := 0,
        flightsThisMonth := 0, hoursToday := 0, hoursThisWeek := 0,
        hoursThisMonth := 0, hoursThisYear := 0, soloFlightsToday := 0,
        soloFlightsThisWeek := 0, soloFlightsThisMonth := 0,
        soloFlightsThisYear := 0, multiFlightsToday := 0,
        multiFlightsThisWeek := 0, multiFlightsThisMonth := 0,
        multiFlightsThisYear := 0, daysSinceLastFlight := 0,
        consecutiveDays := 0, maxStreak := 0, minStreak := 0,
        streakBreaks := 0, maxRestStreak := 0, minRestStreak := 0,
        restBreaks := 0, totalFlights := 0, totalSoloFlights := 0,
        totalMultiFlights := 0, totalHours := 0, avgDuration := 0,
        maxDuration := 0, minDuration := 0, totalNightFlights := 0,
        daysSinceLastIncident := -1 } := rfl

/-- C8: `computeStats` is deterministic: two evaluations on identical
inputs (the same log list and the same reference instant, in the same
timezone environment) produce identical `FlightStats` records; being a
pure function of its arguments, it has no hidden state, iteration-order or
randomness dependence. -/
theorem computeStats_deterministic (tz now now2 : Int)
    (logs logs2 : List FlightLog) (hl : logs = logs2) (hn : now = now2) :
    computeStats tz now logs = computeStats tz now2 logs2 := by
  rw [hl, hn]

/-- Witness for C8 at a concrete input. -/
theorem computeStats_deterministic_witness :
    gapLogs = gapLogs ∧ gapNow = gapNow ∧
      computeStats 0 gapNow gapLogs = computeStats 0 gapNow gapLogs :=
  ⟨rfl, rfl, computeStats_deterministic 0 gapNow gapNow gapLogs gapLogs rfl rfl⟩

/-- C4: incident entries contribute to none of the period counts, duration
sums, duration extremes or streak statistics: the whole record equals the
one computed from the incident-free sublist, except that
`totalNightFlights` counts the incident entries and
`daysSinceLastIncident` is the whole-day difference from `now` to the
most recent incident timestamp, with sentinel `-1` when there are no
incidents at all. -/
theorem computeStats_incident_isolation (tz now : Int) (logs : List FlightLog) :
    computeStats tz now logs =
      { computeStats tz now (validLogs logs) with
        totalNightFlights := (nightLogs logs).length,
        daysSinceLastIncident :=
          if (nightLogs logs).isEmpty then -1
          else differenceInDays now (jsMax ((nightLogs logs).map FlightLog.date)) } := by
  simp only [computeStats, sortedLogs_validLogs, uniqueDayStrings_validLogs,
    validLogs_idem, sortedNightLogs_validLogs, lastIncident_match_eq]

/-- C9: the output totals partition the input exactly:
`totalFlights = totalSoloFlights + totalMultiFlights`, and
`totalFlights + totalNightFlights` equals the number of input entries. -/
theorem computeStats_totals_partition (tz now : Int) (logs : List FlightLog) :
    (computeStats tz now logs).totalFlights =
      (computeStats tz now logs).totalSoloFlights +
        (computeStats tz now logs).totalMultiFlights ∧
    (computeStats tz now logs).totalFlights +
      (computeStats tz now logs).totalNightFlights = logs.length := by
  rw [computeStats_totalFlights, computeStats_totalSolo, computeStats_totalMulti,
    computeStats_totalNight]
  constructor
  · exact solo_multi_partition (sortedLogs logs) fun a ha => mem_sortedLogs_type ha
  · rw [show (sortedLogs logs).length = (validLogs logs).length from
      (sortByDateDesc_perm (validLogs logs)).length_eq]
    exact valid_night_partition logs

/-- C6: the period counts classify an entry by its timestamp: today =
same local calendar day as `now`; this week = inside the Monday-started
week of `now`; this month / this year = same local calendar month / year
as `now`; and the counts are exactly the sizes of the corresponding
filters of the non-incident entries. -/
theorem computeStats_period_predicates (tz now : Int) (logs : List FlightLog) :
    (∀ d : Int,
      (isSameDay tz d now = true ↔ sameCalendarDay tz d now) ∧
      (isSameWeek tz d now = true ↔ inMondayWeekOf tz now d) ∧
      (isSameMonth tz d now = true ↔ sameCalendarMonth tz d now) ∧
      ((getFullYear tz d == getFullYear tz now) = true ↔ sameCalendarYear tz d now)) ∧
    (computeStats tz now logs).flightsToday =
      ((validLogs logs).filter fun l => isSameDay tz l.date now).length ∧
    (computeStats tz now logs).flightsThisWeek =
      ((validLogs logs).filter fun l => isSameWeek tz l.date now).length ∧
    (computeStats tz now logs).flightsThisMonth =
      ((validLogs logs).filter fun l => isSameMonth tz l.date now).length ∧
    (computeStats tz now logs).flightsThisYear =
      ((validLogs logs).filter fun l =>
        getFullYear tz l.date == getFullYear tz now).length := by
  refine ⟨fun d => ⟨isSameDay_iff tz d now, isSameWeek_iff tz d now,
    isSameMonth_iff tz d now, sameYear_iff tz d now⟩, ?_, ?_, ?_, ?_⟩
  · rw [computeStats_flightsToday]
    exact ((sortByDateDesc_perm (validLogs logs)).filter _).length_eq
  · rw [computeStats_flightsThisWeek]
    exact ((sortByDateDesc_perm (validLogs logs)).filter _).length_eq
  · rw [computeStats_flightsThisMonth]
    exact ((sortByDateDesc_perm (validLogs logs)).filter _).length_eq
  · rw [computeStats_flightsThisYear]
    exact ((sortByDateDesc_perm (validLogs logs)).filter _).length_eq

/-- C10 (amended): the period aggregates are monotone under period
containment: today is inside the week of `now` and inside the month of
`now`, the month is inside the year, the year inside all time; the same
holds for the solo-only and shared-only counts, and, for non-negative
durations, for the duration sums computed over the same date-sorted
traversal: `hoursToday ≤ hoursThisWeek` and
`hoursToday ≤ hoursThisMonth ≤ hoursThisYear`.  The further link
`hoursThisYear ≤ totalHours` is excluded: the source sums `totalHours`
over the input order and the period hours over the date-sorted order
(App.tsx lines 60 and 62), and binary64 addition is order-dependent, so
that link fails on the program (see the counterexample below). -/
theorem computeStats_period_monotone (tz now : Int) (logs : List FlightLog)
    (h : ∀ l ∈ logs, 0 ≤ l.flightTime) :
    ((computeStats tz now logs).flightsToday ≤ (computeStats tz now logs).flightsThisWeek ∧
      (computeStats tz now logs).flightsToday ≤ (computeStats tz now logs).flightsThisMonth ∧
      (computeStats tz now logs).flightsThisMonth ≤ (computeStats tz now logs).flightsThisYear ∧
      (computeStats tz now logs).flightsThisYear ≤ (computeStats tz now logs).totalFlights) ∧
    ((computeStats tz now logs).soloFlightsToday ≤ (computeStats tz now logs).soloFlightsThisWeek ∧
      (computeStats tz now logs).soloFlightsToday ≤ (computeStats tz now logs).soloFlightsThisMonth ∧
      (computeStats tz now logs).soloFlightsThisMonth ≤ (computeStats tz now logs).soloFlightsThisYear ∧
      (computeStats tz now logs).soloFlightsThisYear ≤ (computeStats tz now logs).totalSoloFlights) ∧
    ((computeStats tz now logs).multiFlightsToday ≤ (computeStats tz now logs).multiFlightsThisWeek ∧
      (computeStats tz now logs).multiFlightsToday ≤ (computeStats tz now logs).multiFlightsThisMonth ∧
      (computeStats tz now logs).multiFlightsThisMonth ≤ (computeStats tz now logs).multiFlightsThisYear ∧
      (computeStats tz now logs).multiFlightsThisYear ≤ (computeStats tz now logs).totalMultiFlights) ∧
    ((computeStats tz now logs).hoursToday ≤ (computeStats tz now logs).hoursThisWeek ∧
      (computeStats tz now logs).hoursToday ≤ (computeStats tz now logs).hoursThisMonth ∧
      (computeStats tz now logs).hoursThisMonth ≤ (computeStats tz now logs).hoursThisYear) := by
  have hnn : ∀ a ∈ sortedLogs logs, 0 ≤ a.flightTime :=
    fun a ha => h a (mem_sortedLogs_mem ha)
  refine ⟨⟨?_, ?_, ?_, ?_⟩, ⟨?_, ?_, ?_, ?_⟩, ⟨?_, ?_, ?_, ?_⟩, ⟨?_, ?_, ?_⟩⟩
  · rw [computeStats_flightsToday, computeStats_flightsThisWeek]
    exact length_filter_mono fun a => isSameDay_imp_week
  · rw [computeStats_flightsToday, computeStats_flightsThisMonth]
    exact length_filter_mono fun a => isSameDay_imp_month
  · rw [computeStats_flightsThisMonth, computeStats_flightsThisYear]
    exact length_filter_mono fun a => isSameMonth_imp_year
  · rw [computeStats_flightsThisYear, computeStats_totalFlights]
    exact List.length_filter_le _ _
  · rw [computeStats_soloToday, computeStats_soloWeek]
    exact length_filter_mono fun a => isSameDay_imp_week
  · rw [computeStats_soloToday, computeStats_soloMonth]
    exact length_filter_mono fun a => isSameDay_imp_month
  · rw [computeStats_soloMonth, computeStats_soloYear]
    exact length_filter_mono fun a => isSameMonth_imp_year
  · rw [computeStats_soloYear, computeStats_totalSolo]
    exact List.length_filter_le _ _
  · rw [computeStats_multiToday, computeStats_multiWeek]
    exact length_filter_mono fun a => isSameDay_imp_week
  · rw [computeStats_multiToday, computeStats_multiMonth]
    exact length_filter_mono fun a => isSameDay_imp_month
  · rw [computeStats_multiMonth, computeStats_multiYear]
    exact length_filter_mono fun a => isSameMonth_imp_year
  · rw [computeStats_multiYear, computeStats_totalMulti]
    exact List.length_filter_le _ _
  · rw [computeStats_hoursToday, computeStats_hoursThisWeek]
    exact sumHours_filter_mono (fun a => isSameDay_imp_week) hnn
  · rw [computeStats_hoursToday, computeStats_hoursThisMonth]
    exact sumHours_filter_mono (fun a => isSameDay_imp_month) hnn
  · rw [computeStats_hoursThisMonth, computeStats_hoursThisYear]
    exact sumHours_filter_mono (fun a => isSameMonth_imp_year) hnn

/-- Witness for C10 at a concrete two-entry input. -/
theorem computeStats_period_monotone_witness :
    (∀ l ∈ gapLogs, 0 ≤ l.flightTime) ∧
    (((computeStats 0 gapNow gapLogs).flightsToday ≤ (computeStats 0 gapNow gapLogs).flightsThisWeek ∧
      (computeStats 0 gapNow gapLogs).flightsToday ≤ (computeStats 0 gapNow gapLogs).flightsThisMonth ∧
      (computeStats 0 gapNow gapLogs).flightsThisMonth ≤ (computeStats 0 gapNow gapLogs).flightsThisYear ∧
      (computeStats 0 gapNow gapLogs).flightsThisYear ≤ (computeStats 0 gapNow gapLogs).totalFlights) ∧
    ((computeStats 0 gapNow gapLogs).soloFlightsToday ≤ (computeStats 0 gapNow gapLogs).soloFlightsThisWeek ∧
      (computeStats 0 gapNow gapLogs).soloFlightsToday ≤ (computeStats 0 gapNow gapLogs).soloFlightsThisMonth ∧
      (computeStats 0 gapNow gapLogs).soloFlightsThisMonth ≤ (computeStats 0 gapNow gapLogs).soloFlightsThisYear ∧
      (computeStats 0 gapNow gapLogs).soloFlightsThisYear ≤ (computeStats 0 gapNow gapLogs).totalSoloFlights) ∧
    ((computeStats 0 gapNow gapLogs).multiFlightsToday ≤ (computeStats 0 gapNow gapLogs).multiFlightsThisWeek ∧
      (computeStats 0 gapNow gapLogs).multiFlightsToday ≤ (computeStats 0 gapNow gapLogs).multiFlightsThisMonth ∧
      (computeStats 0 gapNow gapLogs).multiFlightsThisMonth ≤ (computeStats 0 gapNow gapLogs).multiFlightsThisYear ∧
      (computeStats 0 gapNow gapLogs).multiFlightsThisYear ≤ (computeStats 0 gapNow gapLogs).totalMultiFlights) ∧
    ((computeStats 0 gapNow gapLogs).hoursToday ≤ (computeStats 0 gapNow gapLogs).hoursThisWeek ∧
      (computeStats 0 gapNow gapLogs).hoursToday ≤ (computeStats 0 gapNow gapLogs).hoursThisMonth ∧
      (computeStats 0 gapNow gapLogs).hoursThisMonth ≤ (computeStats 0 gapNow gapLogs).hoursThisYear)) :=
  ⟨by decide, computeStats_period_monotone 0 gapNow gapLogs (by decide)⟩

theorem if_jsMax_eq {α : Type} [LinearOrder α] [Zero α] (L : List α) :
    (if 0 < L.length then jsMax L else 0) = jsMax L := by
  cases L <;> simp [jsMax]

theorem if_jsMin_eq {α : Type} [LinearOrder α] [Zero α] (L : List α) :
    (if 0 < L.length then jsMin L else 0) = jsMin L := by
  cases L <;> simp [jsMin]

theorem streakLengths_headD (d : Int) (rest : List Int) :
    (streakLengths (d :: rest)).headD 0 =
      ((consecRuns (d :: rest)).headD []).length := by
  obtain ⟨t, rs, h⟩ := consecRuns_cons_shape d rest
  rw [streakLengths_eq, h]
  simp

/-- C1: the streak statistics derive from the partition of the unique
activity days into maximal runs of strictly consecutive calendar days
(difference of exactly 1 continues a run, any larger difference closes
it): the runs concatenate to the day list, each run is consecutive, run
boundaries are never at difference 1; `maxStreak` is the maximum run
length (0 with no entries), `minStreak` the minimum over positive-length
runs (0 if none), `streakBreaks` is the truncated predecessor of the
number of positive runs, and `consecutiveDays` is the most recent run
length exactly when the whole-day difference from `now` to the most
recent unique activity day is at most 1, else 0; in particular, with the
most recent activity five days before `now` at the end of a four-day run,
`maxStreak = 4` and `consecutiveDays = 0`. -/
theorem computeStats_streaks (tz now : Int) (logs : List FlightLog) :
    (consecRuns (uniqueDayStrings logs)).flatten = uniqueDayStrings logs ∧
    (∀ r ∈ consecRuns (uniqueDayStrings logs),
      r ≠ [] ∧ r.Chain' (fun a b => a - b = 1)) ∧
    (consecRuns (uniqueDayStrings logs)).Chain'
      (fun r s => ∀ a ∈ r.getLast?, ∀ b ∈ s.head?, a - b ≠ 1) ∧
    (computeStats tz now logs).maxStreak =
      jsMax ((consecRuns (uniqueDayStrings logs)).map List.length) ∧
    (computeStats tz now logs).minStreak =
      jsMin (((consecRuns (uniqueDayStrings logs)).map List.length).filter
        fun s => decide (0 < s)) ∧
    (computeStats tz now logs).streakBreaks =
      (((consecRuns (uniqueDayStrings logs)).map List.length).filter
        fun s => decide (0 < s)).length - 1 ∧
    (computeStats tz now logs).consecutiveDays =
      (match uniqueDayStrings logs with
      | [] => 0
      | d :: _ =>
        if differenceInDays now (d * msPerDay) ≤ 1 then
          ((consecRuns (uniqueDayStrings logs)).headD []).length
        else 0) ∧
    ((computeStats 0 lapsedNow lapsedLogs).maxStreak = 4 ∧
      (computeStats 0 lapsedNow lapsedLogs).consecutiveDays = 0) := by
  refine ⟨consecRuns_flatten _, consecRuns_runs _, consecRuns_boundaries _,
    ?_, ?_, ?_, ?_, by decide, by decide⟩
  · rw [computeStats_maxStreak, streakLengths_eq, if_jsMax_eq]
  · rw [computeStats_minStreak, streakLengths_eq, if_jsMin_eq]
  · rw [computeStats_streakBreaks, streakLengths_eq]
  · rw [computeStats_consecutiveDays]
    cases hu : uniqueDayStrings logs with
    | nil => rfl
    | cons d rest =>
      show (if differenceInDays now (d * msPerDay) ≤ 1 then
          (streakLengths (d :: rest)).headD 0 else 0) = _
      rw [streakLengths_headD]

/-- C2: the rest statistics derive from the positive adjacent gaps of the
descending unique-day list (`gap = difference - 1`, only gaps above 0
kept): `maxRestStreak` and `minRestStreak` are the greatest and smallest
such gap (0 when there is none) and `restBreaks` is the number of
activity runs; in particular for entries on exactly two days separated by
two empty days, `maxStreak = 1`, `streakBreaks = 1`,
`maxRestStreak = minRestStreak = 2` and `restBreaks = 2`. -/
theorem computeStats_restGaps (tz now : Int) (logs : List FlightLog) :
    (computeStats tz now logs).maxRestStreak =
      jsMax (specRestGaps (uniqueDayStrings logs)) ∧
    (computeStats tz now logs).minRestStreak =
      jsMin (specRestGaps (uniqueDayStrings logs)) ∧
    (computeStats tz now logs).restBreaks =
      (consecRuns (uniqueDayStrings logs)).length ∧
    ((computeStats 0 gapNow gapLogs).maxStreak = 1 ∧
      (computeStats 0 gapNow gapLogs).streakBreaks = 1 ∧
      (computeStats 0 gapNow gapLogs).maxRestStreak = 2 ∧
      (computeStats 0 gapNow gapLogs).minRestStreak = 2 ∧
      (computeStats 0 gapNow gapLogs).restBreaks = 2) := by
  refine ⟨?_, ?_, ?_, by decide, by decide, by decide, by decide, by decide⟩
  · rw [computeStats_maxRestStreak, restGaps_eq_spec, if_jsMax_eq]
  · rw [computeStats_minRestStreak, restGaps_eq_spec, if_jsMin_eq]
  · rw [computeStats_restBreaks, streakLengths_eq, List.length_map]

/-- C5 counterexample: the day keys are not the timezone-local calendar
dates.  With a UTC+8 environment and one entry at 1969-12-31 23:00 UTC
(1970-01-01 07:00 local), the code produces the UTC day -1 while the
local calendar date is day 0. -/
theorem uniqueDayStrings_not_local :
    uniqueDayStrings cexLocalLogs ≠ specLocalDayKeys cexTz cexLocalLogs := by
  decide

/-- C5 (amended): the unique day keys are the UTC calendar dates (from
`toISOString`) of the non-incident entries, not the timezone-local dates;
entries on the same UTC day collapse to one key and the keys are
processed in strictly descending order. -/
theorem uniqueDayStrings_utc_descending (logs : List FlightLog) :
    (uniqueDayStrings logs).Pairwise (fun a b => b < a) ∧
    (∀ d : Int, d ∈ uniqueDayStrings logs ↔
      ∃ l ∈ validLogs logs, utcDayOf l.date = d) :=
  ⟨uniqueDayStrings_sorted logs, uniqueDayStrings_mem logs⟩

/-- C7 (code-bug evidence): evaluating the duration pipeline of the
source (App.tsx lines 55-67) under its actual IEEE-754 binary64
arithmetic at the failing input of three 0.1-hour entries, the program
computes `avgDuration` strictly greater than `maxDuration`:
`totalHours = 0.1 + 0.1 + 0.1` rounds to `0.30000000000000004`, dividing
by 3 rounds to `0.10000000000000002 > 0.1 = maxDuration`, violating the
claimed `maxDuration ≥ avgDuration` bound even though the entry count is
positive. -/
theorem avgDuration_float_exceeds_max :
    0 < (validLogs roundingLogs).length ∧
    dyLt (maxDurationF roundingLogs) (avgDurationF roundingLogs) = true := by
  constructor
  · decide
  · decide

/-- C10 counterexample: the claimed `hoursThisYear ≤ totalHours` link is
false of the program.  Under binary64 arithmetic, with non-negative
durations 1.2, 1.2 and `2 ^ 53 + 6` hours input oldest-first and all in
the year of `now`, `totalHours` (summed in input order, App.tsx line 62)
evaluates to `2 ^ 53 + 8` while `hoursThisYear` (summed over the
date-descending `sortedLogs`, line 60) evaluates to `2 ^ 53 + 10`, so
`totalHours < hoursThisYear`. -/
theorem hoursThisYear_float_exceeds_total :
    (∀ l ∈ orderLogs, 0 ≤ l.flightTime) ∧
    dyLt (totalHoursF orderLogs) (hoursThisYearF 0 orderNow orderLogs) = true := by
  constructor
  · intro l hl
    rw [← Rat.num_nonneg]
    fin_cases hl <;> decide
  · decide
